import Mathlib

/-!
# Outflux: query construction, chunked data producer and extractor lifecycle

A shallow embedding of

* `internal/extraction/influx_data_producer.go`
  (`buildSelectCommand`, `buildProjection`, `checkError`, `defaultDataProducer.Fetch`),
* `internal/extraction/influx/influx_extractor.go`
  (`Extractor.Prepare`, `Extractor.Start`),

followed by theorems about the text of the generated query, the trace of
effects of one `Fetch` invocation, and the lifecycle check made by `Start`.

Conventions of the embedding:

* Go strings are `String`; `fmt.Sprintf` is interpreted by `Sprintf` below over the
  very format constants of the source.
* A Go `error` is represented by its message; `nil` is `none`.
* Effects (bus calls, channel writes, channel close, collaborator calls) are recorded
  as a list of `Event`s in program order. `log.Printf` calls are not recorded.
* `defer`red calls are appended to the trace of the code that follows the `defer`
  statement, in last-in first-out order, on every return of that code.
* A write to the data channel is recorded when it is made; the consumer is taken to drain
  the channel, so a write that blocks is a write that completes later.
* Pointers the code dereferences without a check (`e.Config`, the entries of the column
  slice) are taken to be non-nil.
-/

namespace Outflux

/-! ## `fmt.Sprintf` for the verbs used by the sources -/

/-- An operand of a formatting call: a string (or an error, through its message) or an
unsigned integer. -/
inductive FmtArg where
  | str (s : String)
  | nat (n : Nat)
  deriving DecidableEq, Repr

/-- Text of an operand: a string is copied, an integer is written in decimal. -/
def FmtArg.render : FmtArg → List Char
  | .str s => s.data
  | .nat n => (toString n).data

/-- Interpretation of a format over its characters: the verbs `%s`, `%d` and `%v` consume
the next operand, every other character is copied. The sources always pass operands of the
type the verb expects, one per verb; a verb left without operand prints Go's
`%!verb(MISSING)`. -/
def sprintfAux : List Char → List FmtArg → List Char
  | [], _ => []
  | [c], _ => [c]
  | c :: d :: rest, args =>
    if c = '%' ∧ (d = 's' ∨ d = 'd' ∨ d = 'v') then
      match args with
      | a :: as => a.render ++ sprintfAux rest as
      | [] => '%' :: '!' :: d :: "(MISSING)".data ++ sprintfAux rest []
    else c :: sprintfAux (d :: rest) args

/-- Model of `fmt.Sprintf(format, args...)`; `fmt.Errorf` builds its message the same
way. -/
def Sprintf (format : String) (args : List FmtArg) : String :=
  ⟨sprintfAux format.data args⟩

/-- Model of `strings.Join(elems, sep)`: empty for no element, otherwise the first element
followed by `sep` and the next element, for each further element. -/
def Join (elems : List String) (sep : String) : String :=
  match elems with
  | [] => ""
  | e :: rest => rest.foldl (fun b s => b ++ sep ++ s) e

/-! ## Data model -/

/-- The fields of `config.MeasureExtraction` read by the sources. The declaration is in
package `config`; `Limit` and `ChunkSize` are unsigned integers there. -/
structure MeasureExtraction where
  Database : String
  Measure : String
  From : String
  To : String
  ChunkSize : Nat
  Limit : Nat
  RetentionPolicy : String
  deriving DecidableEq, Repr

/-- The field of `idrf.ColumnInfo` read by the query builder. The column slice of the
source holds pointers; a column list is modelled as the list of the records pointed to. -/
structure ColumnInfo where
  Name : String
  deriving DecidableEq, Repr

/-! ## Query builder (`influx_data_producer.go`, lines 16-22 and 126-154) -/

def selectQueryDoubleBoundTemplate : String :=
  "SELECT %s\nFROM \"%s\"\nWHERE time >= '%s' AND time <= '%s'"

def selectQueryLowerBoundTemplate : String :=
  "SELECT %s\nFROM \"%s\"\nWHERE time >= '%s'"

def selectQueryUpperBoundTemplate : String :=
  "SELECT %s\nFROM \"%s\"\nWHERE time <= '%s'"

def selectQueryNoBoundTemplate : String :=
  "SELECT %s\nFROM \"%s\""

def limitSuffixTemplate : String :=
  "\nLIMIT %d"

/-- The slice `columnNames` at the end of the loop of `buildProjection`: allocated with
one empty string per column, then entry `i` is overwritten with the quoted name of
column `i`. -/
def columnNames (columns : List ColumnInfo) : List String :=
  columns.enum.foldl
    (fun names ic => names.set ic.1 (Sprintf "\"%s\"" [.str ic.2.Name]))
    (List.replicate columns.length "")

/-- Model of `buildProjection`. -/
def buildProjection (columns : List ColumnInfo) : String :=
  Join (columnNames columns) ", "

/-- Model of `buildSelectCommand`. -/
def buildSelectCommand (config : MeasureExtraction) (columns : List ColumnInfo) : String :=
  let projection := buildProjection columns
  let command :=
    if config.From ≠ "" ∧ config.To ≠ "" then
      Sprintf selectQueryDoubleBoundTemplate
        [.str projection, .str config.Measure, .str config.From, .str config.To]
    else if config.From ≠ "" then
      Sprintf selectQueryLowerBoundTemplate
        [.str projection, .str config.Measure, .str config.From]
    else if config.To ≠ "" then
      Sprintf selectQueryUpperBoundTemplate
        [.str projection, .str config.Measure, .str config.To]
    else
      Sprintf selectQueryNoBoundTemplate [.str projection, .str config.Measure]
  if config.Limit = 0 then
    command
  else
    let limit := Sprintf limitSuffixTemplate [.nat config.Limit]
    Sprintf "%s %s" [.str command, .str limit]

/-- The projection list in the words of the specification: the names of the columns, each
wrapped in double quotes, in the given order, separated by a comma and one space. -/
def quotedProjection (columns : List ColumnInfo) : String :=
  ", ".intercalate (columns.map (fun c => "\"" ++ c.Name ++ "\""))

/-- The four clause shapes in the words of the specification, chosen by which of the two
bounds is non-empty. -/
def boundShape (projection measure lower upper : String) : String :=
  if lower = "" ∧ upper = "" then
    "SELECT " ++ projection ++ "\nFROM \"" ++ measure ++ "\""
  else if upper = "" then
    "SELECT " ++ projection ++ "\nFROM \"" ++ measure ++ "\"\nWHERE time >= '" ++ lower ++ "'"
  else if lower = "" then
    "SELECT " ++ projection ++ "\nFROM \"" ++ measure ++ "\"\nWHERE time <= '" ++ upper ++ "'"
  else
    "SELECT " ++ projection ++ "\nFROM \"" ++ measure ++ "\"\nWHERE time >= '" ++ lower
      ++ "' AND time <= '" ++ upper ++ "'"

/-! ## Chunked data producer (`influx_data_producer.go`, lines 32-124 and 156-163) -/

/-- One decoded value of a raw row. -/
inductive Value where
  | null
  | bool (b : Bool)
  | num (n : Int)
  | str (s : String)
  deriving DecidableEq, Repr

/-- A raw value row, `idrf.Row`. -/
abbrev Row := List Value

/-- One series of a result: its rows, `Values`. -/
structure Series where
  Values : List Row
  deriving DecidableEq, Repr

/-- One result of a response: its list of series. -/
structure Result where
  Series : List Series
  deriving DecidableEq, Repr

/-- One chunk response of the source client. -/
structure Response where
  Results : List Result
  Err : String
  deriving DecidableEq, Repr

/-- What one call of `chunkResponse.NextResponse()` returns: the error `io.EOF`, another
error, or a response pointer (which can be nil) with a nil error. -/
inductive NextOutcome where
  | eof
  | err (msg : String)
  | resp (response : Option Response)
  deriving DecidableEq, Repr

/-- The collaborators of one `Fetch` invocation, as seen by the producer:
* `subscribe`: the error of `errorBroadcaster.Subscribe`, if any;
* `newConnection`: the error of `NewConnection`, if any;
* `queryAsChunk`: the error of `QueryAsChunk`, or the outcomes its chunk stream returns
  in order (a stream read past its last outcome returns `io.EOF`);
* `pending k`: the content of the private error channel at the moment the check before
  the request number `k` (counted from 0) is made. -/
structure Collaborators where
  subscribe : Option String
  newConnection : Option String
  queryAsChunk : Except String (List NextOutcome)
  pending : Nat → List String

/-- The observable effects of `Fetch`, in program order. -/
inductive Event where
  | subscribe (id : String)
  | unsubscribe (id : String)
  | broadcast (id : String) (err : String)
  | newConnection
  | clientClose
  | queryAsChunk
  | chunkResponseClose
  | nextResponse
  | send (row : Row)
  | closeDataChannel
  deriving DecidableEq, Repr

/-- The producer, `defaultDataProducer`; its connection service is part of
`Collaborators`. -/
structure defaultDataProducer where
  extractorID : String
  deriving DecidableEq, Repr

/-- Model of `checkError`: a receive that does not block. It returns the first
notification of the channel when there is one, and nil otherwise. -/
def checkError (errorChannel : List String) : Option String :=
  match errorChannel with
  | err :: _ => some err
  | [] => none

/-- The `for` loop of `Fetch` (lines 83-123), from the iteration number `k` on, over the
outcomes the chunk stream still holds. -/
def fetchLoop (extractorID : String) (pending : Nat → List String) :
    List NextOutcome → Nat → List Event
  | stream, k =>
    match checkError (pending k) with
    | some _ => []
    | none =>
      Event.nextResponse ::
      match stream with
      | [] => []
      | NextOutcome.eof :: _ => []
      | NextOutcome.err err :: _ =>
        [Event.broadcast extractorID
          (Sprintf "extractor '%s': error decoding response.\n%v" [.str extractorID, .str err])]
      | NextOutcome.resp none :: _ =>
        [Event.broadcast extractorID
          (Sprintf "extractor '%s': server did not return a proper response" [.str extractorID])]
      | NextOutcome.resp (some response) :: rest =>
        if response.Err ≠ "" ∨ response.Results.length ≠ 1 then
          [Event.broadcast extractorID
            (Sprintf "extractor '%s': server did not return a proper response"
              [.str extractorID])]
        else
          match response.Results with
          | [] => []
          | result :: _ =>
            match result.Series with
            | _ :: _ :: _ =>
              [Event.broadcast extractorID
                (Sprintf "extractor '%s': returned response had an unexpected format"
                  [.str extractorID])]
            | [] => []
            | [rows] => rows.Values.map Event.send ++ fetchLoop extractorID pending rest (k + 1)

/-- Model of `defaultDataProducer.Fetch`. The four `defer`red calls run when the code
after their registration returns: closing the data channel was registered first and runs
last. -/
def Fetch (dp : defaultDataProducer) (env : Collaborators) : List Event :=
  (Event.subscribe dp.extractorID ::
    match env.subscribe with
    | some _ =>
      [Event.broadcast dp.extractorID
        (Sprintf "extractor '%s' couldn't subscribe for errors" [.str dp.extractorID])]
    | none =>
      (Event.newConnection ::
        match env.newConnection with
        | some err =>
          [Event.broadcast dp.extractorID
            (Sprintf "extractor '%s' couldn't create an influx client.\n%v"
              [.str dp.extractorID, .str err])]
        | none =>
          (Event.queryAsChunk ::
            match env.queryAsChunk with
            | .error err =>
              [Event.broadcast dp.extractorID
                (Sprintf "extractor '%s' could not execute a chunked query.\n%v"
                  [.str dp.extractorID, .str err])]
            | .ok chunkResponse =>
              fetchLoop dp.extractorID env.pending chunkResponse 0
                ++ [Event.chunkResponseClose])
          ++ [Event.clientClose])
      ++ [Event.unsubscribe dp.extractorID])
  ++ [Event.closeDataChannel]

/-! ### Observations on a trace -/

/-- The rows written to the data channel, in order. -/
def rowsSent (trace : List Event) : List Row :=
  trace.filterMap (fun e => match e with | .send row => some row | _ => none)

/-- The calls of `Broadcast`, in order, as pairs of sender and error message. -/
def broadcasts (trace : List Event) : List (String × String) :=
  trace.filterMap (fun e => match e with | .broadcast id err => some (id, err) | _ => none)

/-- Number of chunk requests (`NextResponse` calls). -/
def chunkRequests (trace : List Event) : Nat :=
  trace.count Event.nextResponse

/-- Number of times the data channel is closed. -/
def closes (trace : List Event) : Nat :=
  trace.count Event.closeDataChannel

/-- Number of `Unsubscribe` calls for the identifier `id`. -/
def unsubscribes (id : String) (trace : List Event) : Nat :=
  trace.count (Event.unsubscribe id)

/-- A response that passes every check of the loop and carries rows to stream: no error
text, exactly one result, and exactly one series in it. -/
def WellFormed (r : Response) : Prop :=
  r.Err = "" ∧ r.Results.length = 1 ∧ ∀ res ∈ r.Results, res.Series.length = 1

instance (r : Response) : Decidable (WellFormed r) := by
  unfold WellFormed; infer_instance

/-- All rows carried by a response, in the order the response holds them. -/
def responseRows (r : Response) : List Row :=
  (r.Results.flatMap (fun res => res.Series)).flatMap (fun s => s.Values)

/-- A stream outcome that is a fatal local condition: an error other than `io.EOF`, a nil
response, a response with error text, a response whose number of results is not 1, or a
result holding more than one series. -/
def Fatal : NextOutcome → Prop
  | .eof => False
  | .err _ => True
  | .resp none => True
  | .resp (some r) =>
    r.Err ≠ "" ∨ r.Results.length ≠ 1 ∨ ∃ res ∈ r.Results, 1 < res.Series.length

instance (o : NextOutcome) : Decidable (Fatal o) := by
  cases o with
  | eof => unfold Fatal; infer_instance
  | err _ => unfold Fatal; infer_instance
  | resp r => cases r <;> (unfold Fatal; infer_instance)

/-- The text `part` occurs in `s`. -/
def Contains (s part : String) : Prop :=
  ∃ before after : String, s = before ++ part ++ after

/-- The outcomes of a stream that delivers the given responses. -/
def delivered (responses : List Response) : List NextOutcome :=
  responses.map (fun r => NextOutcome.resp (some r))

/-! ## Extraction coordinator (`influx/influx_extractor.go`) -/

/-- The fields of `config.ExtractionConfig` read by the extractor. -/
structure ExtractionConfig where
  ExtractorID : String
  MeasureExtraction : MeasureExtraction
  DataBufferSize : Nat
  deriving DecidableEq, Repr

/-- The discovered data set, `idrf.DataSet`: name and ordered columns. -/
structure DataSet where
  DataSetName : String
  Columns : List ColumnInfo
  deriving DecidableEq, Repr

/-- A bundle, `idrf.Bundle`: the data set definition and the data channel, represented by
its buffer capacity. -/
structure Bundle where
  DataDef : DataSet
  DataChan : Nat
  deriving DecidableEq, Repr

/-- The query handed to the producer, `influx.Query`. -/
structure Query where
  Command : String
  Database : String
  RetentionPolicy : String
  Chunked : Bool
  ChunkSize : Nat
  deriving DecidableEq, Repr

/-- The arguments of the producer, `producerArgs`: the channels are those of the bundle and
of the caller, the converter is the one built for the data set. -/
structure producerArgs where
  dataChannel : Nat
  query : Query
  converter : DataSet
  deriving DecidableEq, Repr

/-- The state of an `Extractor`: configuration and cached bundle (nil is `none`). The
schema manager `SM` and the `DataProducer` are passed to the operations. -/
structure Extractor where
  Config : ExtractionConfig
  cachedElementData : Option Bundle
  deriving DecidableEq, Repr

/-- The collaborator calls made by the extractor, in program order. -/
inductive Call where
  | fetchDataSet (measure : String)
  | buildSelectCommand (config : MeasureExtraction) (columns : List ColumnInfo)
  | newIdrfConverter (dataDef : DataSet)
  | fetch (args : producerArgs)
  deriving DecidableEq, Repr

/-- What an operation of the extractor leaves behind: the returned error (nil is `none`),
the collaborator calls it made, and the extractor afterwards. -/
structure Outcome where
  err : Option String
  calls : List Call
  extractor : Extractor
  deriving DecidableEq, Repr

/-- Model of `Extractor.ID`. -/
def Extractor.ID (e : Extractor) : String :=
  e.Config.ExtractorID

/-- Model of `Extractor.Prepare`; `fetchDataSet` is `SM.FetchDataSet`. The bundle itself is
the first return value and is read from the extractor afterwards. -/
def Extractor.Prepare (e : Extractor) (fetchDataSet : String → Except String DataSet) :
    Outcome :=
  let measureName := e.Config.MeasureExtraction.Measure
  match fetchDataSet measureName with
  | .error err =>
    { err := some (Sprintf "%s: could not fetch data set definition for measure: %s\n%v"
        [.str e.ID, .str measureName, .str err]),
      calls := [Call.fetchDataSet measureName],
      extractor := e }
  | .ok discoveredDataSet =>
    let bundle : Bundle :=
      { DataDef := discoveredDataSet, DataChan := e.Config.DataBufferSize }
    { err := none,
      calls := [Call.fetchDataSet measureName],
      extractor := { e with cachedElementData := some bundle } }

/-- Model of `Extractor.Start`; `fetch` is `DataProducer.Fetch`. -/
def Extractor.Start (e : Extractor) (fetch : producerArgs → Option String) : Outcome :=
  match e.cachedElementData with
  | none =>
    { err := some (Sprintf "%s: Prepare not called before start" [.str e.ID]),
      calls := [],
      extractor := e }
  | some cached =>
    let dataDef := cached.DataDef
    let measureConf := e.Config.MeasureExtraction
    let intChunkSize := measureConf.ChunkSize
    let query : Query :=
      { Command := buildSelectCommand measureConf dataDef.Columns,
        Database := measureConf.Database,
        RetentionPolicy := measureConf.RetentionPolicy,
        Chunked := true,
        ChunkSize := intChunkSize }
    let args : producerArgs :=
      { dataChannel := cached.DataChan, query := query, converter := dataDef }
    { err := fetch args,
      calls := [Call.buildSelectCommand measureConf dataDef.Columns,
        Call.newIdrfConverter dataDef, Call.fetch args],
      extractor := e }

/-! ## Auxiliary definitions for the statements -/

/-- The events of one well-formed chunk: the request, then one write per row. -/
def chunkEvents (r : Response) : List Event :=
  Event.nextResponse :: (responseRows r).map Event.send

/-- An event the streaming loop can produce: a chunk request, a row write or a
broadcast. -/
def Event.ofLoop : Event → Bool
  | .nextResponse => true
  | .send _ => true
  | .broadcast _ _ => true
  | _ => false

/-! ## Sample inputs -/

/-- Lower bound only, limit 100, over the measure `cpu`. -/
def sampleConfig : MeasureExtraction :=
  { Database := "db", Measure := "cpu", From := "2020-01-01T00:00:00Z", To := "",
    ChunkSize := 10, Limit := 100, RetentionPolicy := "autogen" }

/-- The columns `time`, `host`, `usage`. -/
def sampleColumns : List ColumnInfo :=
  [{ Name := "time" }, { Name := "host" }, { Name := "usage" }]

/-- A row holding one number. -/
def sampleRow (n : Int) : Row := [Value.num n]

/-- A well-formed chunk of two rows. -/
def sampleChunk (a b : Int) : Response :=
  { Results := [{ Series := [{ Values := [sampleRow a, sampleRow b] }] }], Err := "" }

/-- A response whose single result holds two series. -/
def twoSeriesResponse : Response :=
  { Results := [{ Series := [{ Values := [sampleRow 7] }, { Values := [sampleRow 8] }] }],
    Err := "" }

/-- A response whose result list is empty. -/
def noResultResponse : Response :=
  { Results := [], Err := "" }

/-- A response whose single result holds no series. -/
def noSeriesResponse : Response :=
  { Results := [{ Series := [] }], Err := "" }

def sampleProducer : defaultDataProducer :=
  { extractorID := "extractor-1" }

/-- Three chunks of two rows each, then end of stream; no notification ever. -/
def threeChunks : Collaborators :=
  { subscribe := none, newConnection := none,
    queryAsChunk :=
      .ok (delivered [sampleChunk 1 2, sampleChunk 3 4, sampleChunk 5 6] ++ [NextOutcome.eof]),
    pending := fun _ => [] }

/-- The same source, with a notification present at the check before the second request. -/
def notifiedBeforeSecond : Collaborators :=
  { subscribe := none, newConnection := none,
    queryAsChunk :=
      .ok (delivered [sampleChunk 1 2] ++ delivered [sampleChunk 3 4, sampleChunk 5 6]
        ++ [NextOutcome.eof]),
    pending := fun k => if k = 1 then ["sibling failed"] else [] }

/-- One good chunk, then a response carrying two series, then more data. -/
def twoSeriesSource : Collaborators :=
  { subscribe := none, newConnection := none,
    queryAsChunk :=
      .ok (delivered [sampleChunk 1 2]
        ++ NextOutcome.resp (some twoSeriesResponse) :: delivered [sampleChunk 3 4]),
    pending := fun _ => [] }

/-- A bus that rejects the subscription (identifier already registered). -/
def duplicateIdentifier : Collaborators :=
  { subscribe := some "already subscribed", newConnection := none,
    queryAsChunk := .ok [NextOutcome.eof],
    pending := fun _ => [] }

/-- A source whose first response has an empty result list. -/
def noResultSource : Collaborators :=
  { subscribe := none, newConnection := none,
    queryAsChunk := .ok [NextOutcome.resp (some noResultResponse)],
    pending := fun _ => [] }

/-- One good chunk, then a response with one result and no series, then more data. -/
def noSeriesSource : Collaborators :=
  { subscribe := none, newConnection := none,
    queryAsChunk :=
      .ok (delivered [sampleChunk 1 2]
        ++ NextOutcome.resp (some noSeriesResponse) :: delivered [sampleChunk 3 4]),
    pending := fun _ => [] }

/-- An extractor on which `Prepare` has cached nothing. -/
def unprepared : Extractor :=
  { Config := { ExtractorID := "extractor-1", MeasureExtraction := sampleConfig,
                DataBufferSize := 16 },
    cachedElementData := none }


/-! ## Formatting and joining -/

theorem Sprintf_quote (n : String) : Sprintf "\"%s\"" [.str n] = "\"" ++ n ++ "\"" := by
  apply String.ext
  simp [Sprintf, sprintfAux, FmtArg.render]

theorem columnNames_fold (done : List String) (rest : List ColumnInfo) :
    (rest.enumFrom done.length).foldl
      (fun names ic => names.set ic.1 (Sprintf "\"%s\"" [.str ic.2.Name]))
      (done ++ List.replicate rest.length "")
    = done ++ rest.map (fun c => "\"" ++ c.Name ++ "\"") := by
  induction rest generalizing done with
  | nil => simp
  | cons c cs ih =>
    have h := ih (done ++ ["\"" ++ c.Name ++ "\""])
    simp only [List.length_append, List.length_singleton, List.append_assoc,
      List.singleton_append] at h
    simp only [List.enumFrom_cons, List.foldl_cons, List.length_cons, List.replicate_succ,
      List.map_cons, Sprintf_quote]
    rw [← h]
    congr 1
    simp

theorem columnNames_eq_map (columns : List ColumnInfo) :
    columnNames columns = columns.map (fun c => "\"" ++ c.Name ++ "\"") := by
  have h := columnNames_fold [] columns
  simpa [columnNames, List.enum] using h

theorem intercalate_go_eq_foldl (sep acc : String) (l : List String) :
    String.intercalate.go acc sep l = l.foldl (fun b s => b ++ sep ++ s) acc := by
  induction l generalizing acc with
  | nil => simp [String.intercalate.go]
  | cons a as ih => simp [String.intercalate.go, ih]

theorem Join_eq_intercalate (elems : List String) (sep : String) :
    Join elems sep = sep.intercalate elems := by
  cases elems with
  | nil => simp [Join, String.intercalate]
  | cons e rest => simp [Join, String.intercalate, intercalate_go_eq_foldl]

theorem command_shape (projection measure lower upper : String) :
    (if lower ≠ "" ∧ upper ≠ "" then
      Sprintf selectQueryDoubleBoundTemplate [.str projection, .str measure, .str lower, .str upper]
    else if lower ≠ "" then
      Sprintf selectQueryLowerBoundTemplate [.str projection, .str measure, .str lower]
    else if upper ≠ "" then
      Sprintf selectQueryUpperBoundTemplate [.str projection, .str measure, .str upper]
    else
      Sprintf selectQueryNoBoundTemplate [.str projection, .str measure])
    = boundShape projection measure lower upper := by
  unfold boundShape
  by_cases hl : lower = "" <;> by_cases hu : upper = "" <;>
    simp only [hl, hu, ne_eq, not_true_eq_false, not_false_eq_true, and_self, and_true, and_false,
      true_and, false_and, if_true, if_false] <;>
    (apply String.ext
     simp [Sprintf, sprintfAux, FmtArg.render, selectQueryDoubleBoundTemplate,
       selectQueryLowerBoundTemplate, selectQueryUpperBoundTemplate, selectQueryNoBoundTemplate])

theorem limit_suffix (command : String) (n : Nat) :
    Sprintf "%s %s" [.str command, .str (Sprintf limitSuffixTemplate [.nat n])]
      = command ++ " \nLIMIT " ++ toString n := by
  apply String.ext
  simp [Sprintf, sprintfAux, FmtArg.render, limitSuffixTemplate]

theorem buildSelectCommand_eq (config : MeasureExtraction) (columns : List ColumnInfo) :
    buildSelectCommand config columns =
      if config.Limit = 0 then
        boundShape (buildProjection columns) config.Measure config.From config.To
      else
        boundShape (buildProjection columns) config.Measure config.From config.To
          ++ " \nLIMIT " ++ toString config.Limit := by
  unfold buildSelectCommand
  simp only [command_shape, limit_suffix]


theorem wellFormed_shape (r : Response) (h : WellFormed r) :
    ∃ s : Series, r = { Results := [{ Series := [s] }], Err := "" } := by
  obtain ⟨results, err⟩ := r
  obtain ⟨h1, h2, h3⟩ := h
  simp only at h1 h2 h3
  subst h1
  match results, h2, h3 with
  | [res], _, h3 =>
    obtain ⟨series⟩ := res
    have h4 := h3 ⟨series⟩ (by simp)
    simp only at h4
    match series, h4 with
    | [s], _ => exact ⟨s, rfl⟩

theorem fetchLoop_delivered (id : String) (pending : Nat → List String)
    (responses : List Response) (rest : List NextOutcome) (k : Nat)
    (hwf : ∀ r ∈ responses, WellFormed r)
    (hquiet : ∀ j, k ≤ j → j < k + responses.length → pending j = []) :
    fetchLoop id pending (delivered responses ++ rest) k
      = responses.flatMap chunkEvents ++ fetchLoop id pending rest (k + responses.length) := by
  induction responses generalizing k with
  | nil => simp [delivered]
  | cons r rs ih =>
    obtain ⟨s, rfl⟩ := wellFormed_shape r (hwf r (by simp))
    have hk : pending k = [] := hquiet k (Nat.le_refl k) (by simp)
    have ih2 := ih (k + 1) (fun r hr => hwf r (by simp [hr]))
      (fun j h1 h2 => hquiet j (by omega) (by simp; omega))
    simp only [delivered] at ih2
    simp only [delivered, List.map_cons, List.cons_append, List.flatMap_cons, chunkEvents,
      responseRows, List.length_cons]
    rw [fetchLoop]
    simp [hk, checkError, ih2, Nat.add_assoc, Nat.add_comm 1]


theorem rowsSent_append (a b : List Event) : rowsSent (a ++ b) = rowsSent a ++ rowsSent b := by
  simp [rowsSent, List.filterMap_append]

theorem broadcasts_append (a b : List Event) :
    broadcasts (a ++ b) = broadcasts a ++ broadcasts b := by
  simp [broadcasts, List.filterMap_append]

theorem chunkRequests_append (a b : List Event) :
    chunkRequests (a ++ b) = chunkRequests a + chunkRequests b := by
  simp [chunkRequests, List.count_append]

theorem closes_append (a b : List Event) : closes (a ++ b) = closes a + closes b := by
  simp [closes, List.count_append]

theorem unsubscribes_append (id : String) (a b : List Event) :
    unsubscribes id (a ++ b) = unsubscribes id a + unsubscribes id b := by
  simp [unsubscribes, List.count_append]

theorem sends_observed (rows : List Row) (id : String) :
    rowsSent (rows.map Event.send) = rows ∧ broadcasts (rows.map Event.send) = [] ∧
    chunkRequests (rows.map Event.send) = 0 ∧ closes (rows.map Event.send) = 0 ∧
    unsubscribes id (rows.map Event.send) = 0 := by
  induction rows with
  | nil => simp [rowsSent, broadcasts, chunkRequests, closes, unsubscribes]
  | cons r rs ih =>
    obtain ⟨h1, h2, h3, h4, h5⟩ := ih
    simp only [rowsSent, broadcasts, chunkRequests, closes, unsubscribes] at h1 h2 h3 h4 h5 ⊢
    simp [h1, h2, h3, h4, h5]

theorem chunks_observed (responses : List Response) (id : String) :
    rowsSent (responses.flatMap chunkEvents) = responses.flatMap responseRows ∧
    broadcasts (responses.flatMap chunkEvents) = [] ∧
    chunkRequests (responses.flatMap chunkEvents) = responses.length ∧
    closes (responses.flatMap chunkEvents) = 0 ∧
    unsubscribes id (responses.flatMap chunkEvents) = 0 := by
  induction responses with
  | nil => simp [rowsSent, broadcasts, chunkRequests, closes, unsubscribes]
  | cons r rs ih =>
    obtain ⟨h1, h2, h3, h4, h5⟩ := ih
    obtain ⟨g1, g2, g3, g4, g5⟩ := sends_observed (responseRows r) id
    simp only [List.flatMap_cons, rowsSent_append, broadcasts_append, chunkRequests_append,
      closes_append, unsubscribes_append, h1, h2, h3, h4, h5, chunkEvents, List.length_cons]
    have e : Event.nextResponse :: List.map Event.send (responseRows r)
        = [Event.nextResponse] ++ List.map Event.send (responseRows r) := rfl
    rw [e]
    simp only [rowsSent_append, broadcasts_append, chunkRequests_append,
      closes_append, unsubscribes_append, g1, g2, g3, g4, g5]
    simp [rowsSent, broadcasts, chunkRequests, closes, unsubscribes]
    omega

/-- The trace of `Fetch` once subscription, connection and query succeeded. -/
theorem Fetch_streaming (dp : defaultDataProducer) (env : Collaborators)
    (stream : List NextOutcome)
    (hsub : env.subscribe = none) (hconn : env.newConnection = none)
    (hq : env.queryAsChunk = .ok stream) :
    Fetch dp env =
      [Event.subscribe dp.extractorID, Event.newConnection, Event.queryAsChunk]
        ++ fetchLoop dp.extractorID env.pending stream 0
        ++ [Event.chunkResponseClose, Event.clientClose, Event.unsubscribe dp.extractorID,
            Event.closeDataChannel] := by
  simp [Fetch, hsub, hconn, hq]

theorem streaming_observed (id : String) (body : List Event) :
    rowsSent ([Event.subscribe id, Event.newConnection, Event.queryAsChunk] ++ body
        ++ [Event.chunkResponseClose, Event.clientClose, Event.unsubscribe id,
            Event.closeDataChannel]) = rowsSent body ∧
    broadcasts ([Event.subscribe id, Event.newConnection, Event.queryAsChunk] ++ body
        ++ [Event.chunkResponseClose, Event.clientClose, Event.unsubscribe id,
            Event.closeDataChannel]) = broadcasts body ∧
    chunkRequests ([Event.subscribe id, Event.newConnection, Event.queryAsChunk] ++ body
        ++ [Event.chunkResponseClose, Event.clientClose, Event.unsubscribe id,
            Event.closeDataChannel]) = chunkRequests body ∧
    closes ([Event.subscribe id, Event.newConnection, Event.queryAsChunk] ++ body
        ++ [Event.chunkResponseClose, Event.clientClose, Event.unsubscribe id,
            Event.closeDataChannel]) = closes body + 1 ∧
    unsubscribes id ([Event.subscribe id, Event.newConnection, Event.queryAsChunk] ++ body
        ++ [Event.chunkResponseClose, Event.clientClose, Event.unsubscribe id,
            Event.closeDataChannel]) = unsubscribes id body + 1 := by
  simp only [rowsSent_append, broadcasts_append, chunkRequests_append, closes_append,
    unsubscribes_append]
  simp [rowsSent, broadcasts, chunkRequests, closes, unsubscribes]

theorem Fetch_ends_with_close (dp : defaultDataProducer) (env : Collaborators) :
    (Fetch dp env).getLast? = some Event.closeDataChannel := by
  unfold Fetch
  exact List.getLast?_concat _


theorem buildProjection_eq (columns : List ColumnInfo) :
    buildProjection columns = quotedProjection columns := by
  simp [buildProjection, quotedProjection, Join_eq_intercalate, columnNames_eq_map]

theorem append_ne_self (base extra : String) (h : extra ≠ "") : base ++ extra ≠ base := by
  intro heq
  apply h
  have h2 := congrArg String.data heq
  simp only [String.data_append] at h2
  apply String.ext
  simpa using h2

/-! ## Query builder -/

/-- C1 (as stated, at the specification's example): with lower bound
`2020-01-01T00:00:00Z`, no upper bound and limit 100 over the columns time, host, usage,
the text returned by `buildSelectCommand` is not the text of the example: the code writes
one space between the closing quote of the WHERE line and the newline before LIMIT. -/
theorem buildSelectCommand_example_differs :
    buildSelectCommand sampleConfig sampleColumns
      ≠ "SELECT \"time\", \"host\", \"usage\"\nFROM \"cpu\"\nWHERE time >= '2020-01-01T00:00:00Z'\nLIMIT 100" := by
  decide

/-- C1 (amended): for every measure, non-empty lower bound, empty upper bound and limit
n > 0, and every column list, `buildSelectCommand` returns exactly the SELECT line over the
quoted names, newline, the FROM line, newline, the WHERE line with the lower bound, one
space, newline, and `LIMIT n` with n in decimal. -/
theorem buildSelectCommand_lower_bound_limit (config : MeasureExtraction)
    (columns : List ColumnInfo)
    (hfrom : config.From ≠ "") (hto : config.To = "") (hlimit : 0 < config.Limit) :
    buildSelectCommand config columns
      = "SELECT " ++ quotedProjection columns ++ "\nFROM \"" ++ config.Measure
          ++ "\"\nWHERE time >= '" ++ config.From ++ "' \nLIMIT " ++ toString config.Limit := by
  rw [buildSelectCommand_eq, if_neg (by omega), buildProjection_eq]
  apply String.ext
  simp [boundShape, hfrom, hto]

/-- C1 witness: the example of the specification, with the space the code writes. -/
theorem buildSelectCommand_lower_bound_limit_witness :
    sampleConfig.From ≠ "" ∧ sampleConfig.To = "" ∧ 0 < sampleConfig.Limit ∧
    buildSelectCommand sampleConfig sampleColumns
      = "SELECT \"time\", \"host\", \"usage\"\nFROM \"cpu\"\nWHERE time >= '2020-01-01T00:00:00Z' \nLIMIT 100" :=
  ⟨by decide, by decide, by decide,
    (buildSelectCommand_lower_bound_limit sampleConfig sampleColumns
      (by decide) (by decide) (by decide)).trans (by decide)⟩

/-- C2: with limit 0, `buildSelectCommand` returns one of four texts chosen only by which
bounds are non-empty: no bound gives SELECT and FROM lines with no WHERE clause; a lower
bound only adds `WHERE time >= 'from'`; an upper bound only adds `WHERE time <= 'to'`; both
add `WHERE time >= 'from' AND time <= 'to'`. -/
theorem buildSelectCommand_unlimited_shapes (config : MeasureExtraction)
    (columns : List ColumnInfo) (hlimit : config.Limit = 0) :
    (config.From = "" ∧ config.To = "" →
      buildSelectCommand config columns
        = "SELECT " ++ buildProjection columns ++ "\nFROM \"" ++ config.Measure ++ "\"") ∧
    (config.From ≠ "" ∧ config.To = "" →
      buildSelectCommand config columns
        = "SELECT " ++ buildProjection columns ++ "\nFROM \"" ++ config.Measure ++ "\""
            ++ "\nWHERE time >= '" ++ config.From ++ "'") ∧
    (config.From = "" ∧ config.To ≠ "" →
      buildSelectCommand config columns
        = "SELECT " ++ buildProjection columns ++ "\nFROM \"" ++ config.Measure ++ "\""
            ++ "\nWHERE time <= '" ++ config.To ++ "'") ∧
    (config.From ≠ "" ∧ config.To ≠ "" →
      buildSelectCommand config columns
        = "SELECT " ++ buildProjection columns ++ "\nFROM \"" ++ config.Measure ++ "\""
            ++ "\nWHERE time >= '" ++ config.From ++ "' AND time <= '" ++ config.To ++ "'") := by
  rw [buildSelectCommand_eq, if_pos hlimit]
  refine ⟨?_, ?_, ?_, ?_⟩ <;> rintro ⟨h1, h2⟩ <;>
    (apply String.ext; simp [boundShape, h1, h2])

/-- C2 witness: the sample configuration with limit 0 has a lower bound only. -/
theorem buildSelectCommand_unlimited_shapes_witness :
    ({ sampleConfig with Limit := 0 } : MeasureExtraction).Limit = 0 ∧
    buildSelectCommand { sampleConfig with Limit := 0 } sampleColumns
      = "SELECT \"time\", \"host\", \"usage\"\nFROM \"cpu\"\nWHERE time >= '2020-01-01T00:00:00Z'" :=
  ⟨rfl,
    ((buildSelectCommand_unlimited_shapes { sampleConfig with Limit := 0 } sampleColumns
      rfl).2.1 ⟨by decide, by decide⟩).trans (by decide)⟩

/-- C3: the row-limit text is appended if and only if the limit is nonzero: with limit 0
the result is the bound-shaped text unchanged; with limit n ≠ 0 it is that same text
followed by a text that ends in `LIMIT n` (n in decimal); and the two results differ. -/
theorem buildSelectCommand_limit_iff_nonzero (config : MeasureExtraction)
    (columns : List ColumnInfo) (n : Nat) (hn : n ≠ 0) :
    buildSelectCommand { config with Limit := 0 } columns
      = boundShape (buildProjection columns) config.Measure config.From config.To ∧
    (∃ appended before : String,
      buildSelectCommand { config with Limit := n } columns
        = boundShape (buildProjection columns) config.Measure config.From config.To
            ++ appended ∧
      appended = before ++ ("LIMIT " ++ toString n)) ∧
    buildSelectCommand { config with Limit := n } columns
      ≠ buildSelectCommand { config with Limit := 0 } columns := by
  have h0 : buildSelectCommand { config with Limit := 0 } columns
      = boundShape (buildProjection columns) config.Measure config.From config.To := by
    rw [buildSelectCommand_eq]; simp
  have hnz : buildSelectCommand { config with Limit := n } columns
      = boundShape (buildProjection columns) config.Measure config.From config.To
          ++ (" \n" ++ ("LIMIT " ++ toString n)) := by
    rw [buildSelectCommand_eq]
    simp only [if_neg hn]
    apply String.ext
    simp
  refine ⟨h0, ⟨" \n" ++ ("LIMIT " ++ toString n), " \n", hnz, rfl⟩, ?_⟩
  rw [h0, hnz]
  apply append_ne_self
  intro h
  have h2 := congrArg String.data h
  simp at h2

/-- C3 witness: limit 100 against limit 0 on the sample configuration. -/
theorem buildSelectCommand_limit_iff_nonzero_witness :
    (100 : Nat) ≠ 0 ∧
    buildSelectCommand { sampleConfig with Limit := 100 } sampleColumns
      ≠ buildSelectCommand { sampleConfig with Limit := 0 } sampleColumns :=
  ⟨by decide,
    (buildSelectCommand_limit_iff_nonzero sampleConfig sampleColumns 100 (by decide)).2.2⟩

/-- C4: `buildProjection` returns the column names each wrapped in double quotes, in the
given order, joined by a comma and one space: the list of projected names has as many
entries as there are columns, its entry i is the quoted name of column i (and it has no
entry where there is no column), and the text is those entries joined by `, `. -/
theorem buildProjection_quotes_in_order (columns : List ColumnInfo) :
    (columnNames columns).length = columns.length ∧
    (∀ i : Nat, (columnNames columns)[i]?
      = (columns[i]?).map (fun c => "\"" ++ c.Name ++ "\"")) ∧
    buildProjection columns = ", ".intercalate (columnNames columns) ∧
    buildProjection columns = quotedProjection columns := by
  refine ⟨by simp [columnNames_eq_map], fun i => by simp [columnNames_eq_map], ?_,
    buildProjection_eq columns⟩
  simp [buildProjection, Join_eq_intercalate]


/-! ## Steps of the streaming loop -/

theorem fetchLoop_notified (id : String) (pending : Nat → List String)
    (stream : List NextOutcome) (k : Nat) (h : pending k ≠ []) :
    fetchLoop id pending stream k = [] := by
  have hc : ∃ n, checkError (pending k) = some n := by
    cases hp : pending k with
    | nil => exact absurd hp h
    | cons a as => exact ⟨a, rfl⟩
  obtain ⟨n, hn⟩ := hc
  rcases stream with _ | ⟨_ | e | _ | r, rest⟩ <;> (rw [fetchLoop]; simp only [hn])

theorem fetchLoop_eof (id : String) (pending : Nat → List String)
    (rest : List NextOutcome) (k : Nat) (h : pending k = []) :
    fetchLoop id pending (NextOutcome.eof :: rest) k = [Event.nextResponse] := by
  rw [fetchLoop]
  simp [h, checkError]

theorem fetchLoop_no_series (id : String) (pending : Nat → List String)
    (r : Response) (rest : List NextOutcome) (k : Nat) (h : pending k = [])
    (herr : r.Err = "") (hres : r.Results.length = 1)
    (hser : ∀ res ∈ r.Results, res.Series = []) :
    fetchLoop id pending (NextOutcome.resp (some r) :: rest) k = [Event.nextResponse] := by
  obtain ⟨results, err⟩ := r
  simp only at herr hres hser
  subst herr
  match results, hres, hser with
  | [res], _, hser =>
    obtain ⟨series⟩ := res
    have h4 := hser ⟨series⟩ (by simp)
    simp only at h4
    subst h4
    rw [fetchLoop]
    simp [h, checkError]

theorem message_contains_id (id tail : String) :
    Contains ("extractor '" ++ id ++ tail) id :=
  ⟨"extractor '", tail, rfl⟩

theorem decoding_message (id err : String) :
    Sprintf "extractor '%s': error decoding response.\n%v" [.str id, .str err]
      = "extractor '" ++ id ++ ("': error decoding response.\n" ++ err) := by
  apply String.ext
  simp [Sprintf, sprintfAux, FmtArg.render]

theorem improper_message (id : String) :
    Sprintf "extractor '%s': server did not return a proper response" [.str id]
      = "extractor '" ++ id ++ "': server did not return a proper response" := by
  apply String.ext
  simp [Sprintf, sprintfAux, FmtArg.render]

theorem format_message (id : String) :
    Sprintf "extractor '%s': returned response had an unexpected format" [.str id]
      = "extractor '" ++ id ++ "': returned response had an unexpected format" := by
  apply String.ext
  simp [Sprintf, sprintfAux, FmtArg.render]

theorem fetchLoop_fatal (id : String) (pending : Nat → List String)
    (bad : NextOutcome) (rest : List NextOutcome) (k : Nat) (h : pending k = [])
    (hbad : Fatal bad) :
    ∃ msg : String,
      fetchLoop id pending (bad :: rest) k = [Event.nextResponse, Event.broadcast id msg] ∧
      Contains msg id := by
  cases bad with
  | eof => exact absurd hbad (by simp [Fatal])
  | err e =>
    refine ⟨Sprintf "extractor '%s': error decoding response.\n%v" [.str id, .str e], ?_, ?_⟩
    · rw [fetchLoop]
      simp only [h, checkError]
    · rw [decoding_message]
      exact message_contains_id id _
  | resp o =>
    cases o with
    | none =>
      refine ⟨Sprintf "extractor '%s': server did not return a proper response" [.str id],
        ?_, ?_⟩
      · rw [fetchLoop]
        simp only [h, checkError]
      · rw [improper_message]
        exact message_contains_id id _
    | some r =>
      by_cases hguard : r.Err ≠ "" ∨ r.Results.length ≠ 1
      · refine ⟨Sprintf "extractor '%s': server did not return a proper response" [.str id],
          ?_, ?_⟩
        · rw [fetchLoop]
          simp only [h, checkError, if_pos hguard]
        · rw [improper_message]
          exact message_contains_id id _
      · have hser : ∃ res ∈ r.Results, 1 < res.Series.length := by
          simp only [Fatal] at hbad
          rcases hbad with h1 | h1 | h1
          · exact absurd (Or.inl h1) hguard
          · exact absurd (Or.inr h1) hguard
          · exact h1
        obtain ⟨results, err⟩ := r
        simp only [not_or, not_not] at hguard
        obtain ⟨h1, h2⟩ := hguard
        simp only at h1 h2 hser
        match results, h2, hser with
        | [res], _, hser =>
          obtain ⟨res2, hmem, hlen⟩ := hser
          simp only [List.mem_singleton] at hmem
          subst hmem
          obtain ⟨series⟩ := res2
          simp only at hlen
          match series, hlen with
          | s1 :: s2 :: more, _ =>
            refine ⟨Sprintf "extractor '%s': returned response had an unexpected format"
              [.str id], ?_, ?_⟩
            · rw [fetchLoop]
              simp only [h, checkError, h1]
              simp
            · rw [format_message]
              exact message_contains_id id _

theorem fetchLoop_events (id : String) (pending : Nat → List String)
    (stream : List NextOutcome) (k : Nat) :
    ∀ e ∈ fetchLoop id pending stream k, e.ofLoop = true := by
  induction stream generalizing k with
  | nil =>
    intro e he
    rw [fetchLoop] at he
    cases hp : checkError (pending k) with
    | some n => simp [hp] at he
    | none =>
      simp [hp] at he
      subst he
      rfl
  | cons o rest ih =>
    intro e he
    cases hp : checkError (pending k) with
    | some n =>
      have hne : pending k ≠ [] := by
        intro h0
        simp [h0, checkError] at hp
      simp [fetchLoop_notified id pending (o :: rest) k hne] at he
    | none =>
      rcases o with _ | err | _ | r
      · rw [fetchLoop] at he
        simp [hp] at he
        subst he
        rfl
      · rw [fetchLoop] at he
        simp [hp] at he
        rcases he with rfl | rfl <;> rfl
      · rw [fetchLoop] at he
        simp [hp] at he
        rcases he with rfl | rfl <;> rfl
      · rw [fetchLoop] at he
        simp only [hp] at he
        rcases List.mem_cons.1 he with rfl | he
        · rfl
        · split at he
          · simp at he; subst he; rfl
          · split at he
            · simp at he
            · split at he
              · simp at he; subst he; rfl
              · simp at he
              · rcases List.mem_append.1 he with he | he
                · obtain ⟨row, _, rfl⟩ := List.mem_map.1 he
                  rfl
                · exact ih (k + 1) e he

theorem fetchLoop_no_cleanup (id id2 : String) (pending : Nat → List String)
    (stream : List NextOutcome) (k : Nat) :
    closes (fetchLoop id pending stream k) = 0 ∧
    unsubscribes id2 (fetchLoop id pending stream k) = 0 := by
  constructor
  · apply List.count_eq_zero.2
    intro hmem
    exact absurd (fetchLoop_events id pending stream k _ hmem) (by simp [Event.ofLoop])
  · apply List.count_eq_zero.2
    intro hmem
    exact absurd (fetchLoop_events id pending stream k _ hmem) (by simp [Event.ofLoop])


theorem quiet_below (pending : Nat → List String) (n : Nat)
    (h : ∀ j, j < n → pending j = []) :
    ∀ j, 0 ≤ j → j < 0 + n → pending j = [] :=
  fun j _ hj => h j (by omega)

/-! ## Chunked data producer -/

/-- C5: when the source yields well-formed responses and then end-of-stream, and no
notification is ever present on the private channel, `Fetch` writes to the data channel
exactly the rows of the chunks, in chunk order and in row order within each chunk, calls
`Broadcast` zero times, and closes the channel once, as its last effect. -/
theorem Fetch_streams_every_row (dp : defaultDataProducer) (env : Collaborators)
    (responses : List Response) (rest : List NextOutcome)
    (hsub : env.subscribe = none) (hconn : env.newConnection = none)
    (hquery : env.queryAsChunk = .ok (delivered responses ++ NextOutcome.eof :: rest))
    (hwf : ∀ r ∈ responses, WellFormed r)
    (hquiet : ∀ k, env.pending k = []) :
    rowsSent (Fetch dp env) = responses.flatMap responseRows ∧
    broadcasts (Fetch dp env) = [] ∧
    closes (Fetch dp env) = 1 ∧
    (Fetch dp env).getLast? = some Event.closeDataChannel := by
  have hloop := fetchLoop_delivered dp.extractorID env.pending responses
    (NextOutcome.eof :: rest) 0 hwf (fun j _ _ => hquiet j)
  rw [fetchLoop_eof dp.extractorID env.pending rest _ (hquiet _)] at hloop
  obtain ⟨c1, c2, _, c4, _⟩ := chunks_observed responses dp.extractorID
  obtain ⟨s1, s2, _, s4, _⟩ := streaming_observed dp.extractorID
    (fetchLoop dp.extractorID env.pending (delivered responses ++ NextOutcome.eof :: rest) 0)
  refine ⟨?_, ?_, ?_, Fetch_ends_with_close dp env⟩
  · rw [Fetch_streaming dp env _ hsub hconn hquery, s1, hloop, rowsSent_append, c1]
    simp [rowsSent]
  · rw [Fetch_streaming dp env _ hsub hconn hquery, s2, hloop, broadcasts_append, c2]
    simp [broadcasts]
  · rw [Fetch_streaming dp env _ hsub hconn hquery, s4, hloop, closes_append, c4]
    simp [closes]

/-- C5 witness: three chunks of two rows each, then end-of-stream, give exactly the six
rows in their original order, no broadcast and one close. -/
theorem Fetch_streams_every_row_witness :
    rowsSent (Fetch sampleProducer threeChunks)
      = [sampleRow 1, sampleRow 2, sampleRow 3, sampleRow 4, sampleRow 5, sampleRow 6] ∧
    broadcasts (Fetch sampleProducer threeChunks) = [] ∧
    closes (Fetch sampleProducer threeChunks) = 1 ∧
    (Fetch sampleProducer threeChunks).getLast? = some Event.closeDataChannel :=
  Fetch_streams_every_row sampleProducer threeChunks
    [sampleChunk 1 2, sampleChunk 3 4, sampleChunk 5 6] [] rfl rfl rfl (by decide)
    (fun _ => rfl)

/-- C6: if, after k well-formed chunks, a notification is present on the private channel at
the check made before the next request, `Fetch` requests no further chunk (k requests in
all), has written only the rows of the first k chunks, calls `Broadcast` zero times, closes
the data channel once and unsubscribes its identifier once. -/
theorem Fetch_halts_on_notification (dp : defaultDataProducer) (env : Collaborators)
    (responses : List Response) (rest : List NextOutcome)
    (hsub : env.subscribe = none) (hconn : env.newConnection = none)
    (hquery : env.queryAsChunk = .ok (delivered responses ++ rest))
    (hwf : ∀ r ∈ responses, WellFormed r)
    (hquiet : ∀ j, j < responses.length → env.pending j = [])
    (hnotified : env.pending responses.length ≠ []) :
    chunkRequests (Fetch dp env) = responses.length ∧
    rowsSent (Fetch dp env) = responses.flatMap responseRows ∧
    broadcasts (Fetch dp env) = [] ∧
    closes (Fetch dp env) = 1 ∧
    unsubscribes dp.extractorID (Fetch dp env) = 1 := by
  have hloop := fetchLoop_delivered dp.extractorID env.pending responses rest 0 hwf
    (quiet_below env.pending responses.length hquiet)
  rw [fetchLoop_notified dp.extractorID env.pending rest _ (by simpa using hnotified)] at hloop
  obtain ⟨c1, c2, c3, c4, c5⟩ := chunks_observed responses dp.extractorID
  obtain ⟨s1, s2, s3, s4, s5⟩ := streaming_observed dp.extractorID
    (fetchLoop dp.extractorID env.pending (delivered responses ++ rest) 0)
  rw [Fetch_streaming dp env _ hsub hconn hquery, s1, s2, s3, s4, s5, hloop,
    List.append_nil, c1, c2, c3, c4, c5]
  simp

/-- C6 witness: with chunks of two rows and a notification present before the second
request, one chunk is requested, its two rows are the only rows written (at most two),
nothing is broadcast, the channel is closed once and the identifier unsubscribed once. -/
theorem Fetch_halts_on_notification_witness :
    chunkRequests (Fetch sampleProducer notifiedBeforeSecond) = 1 ∧
    rowsSent (Fetch sampleProducer notifiedBeforeSecond) = [sampleRow 1, sampleRow 2] ∧
    broadcasts (Fetch sampleProducer notifiedBeforeSecond) = [] ∧
    closes (Fetch sampleProducer notifiedBeforeSecond) = 1 ∧
    unsubscribes sampleProducer.extractorID (Fetch sampleProducer notifiedBeforeSecond) = 1 :=
  Fetch_halts_on_notification sampleProducer notifiedBeforeSecond [sampleChunk 1 2]
    (delivered [sampleChunk 3 4, sampleChunk 5 6] ++ [NextOutcome.eof]) rfl rfl rfl
    (by decide) (by decide) (by decide)

/-- C7: when, after k well-formed chunks and with no notification present, the source
returns a fatal outcome (an error other than end-of-stream, a nil response, a response with
error text, a response whose number of results is not 1, or a result with more than one
series), `Fetch` calls `Broadcast` exactly once, with its own identifier as sender and a
message that contains the identifier, writes only the rows of the k chunks before,
requests no further chunk (k + 1 requests in all) and closes the data channel once. -/
theorem Fetch_fatal_broadcasts_once (dp : defaultDataProducer) (env : Collaborators)
    (responses : List Response) (bad : NextOutcome) (rest : List NextOutcome)
    (hsub : env.subscribe = none) (hconn : env.newConnection = none)
    (hquery : env.queryAsChunk = .ok (delivered responses ++ bad :: rest))
    (hwf : ∀ r ∈ responses, WellFormed r)
    (hquiet : ∀ j, j < responses.length + 1 → env.pending j = [])
    (hbad : Fatal bad) :
    (∃ msg : String,
      broadcasts (Fetch dp env) = [(dp.extractorID, msg)] ∧ Contains msg dp.extractorID) ∧
    rowsSent (Fetch dp env) = responses.flatMap responseRows ∧
    chunkRequests (Fetch dp env) = responses.length + 1 ∧
    closes (Fetch dp env) = 1 := by
  have hloop := fetchLoop_delivered dp.extractorID env.pending responses (bad :: rest) 0 hwf
    (quiet_below env.pending responses.length (fun j hj => hquiet j (by omega)))
  obtain ⟨msg, hstep, hmsg⟩ := fetchLoop_fatal dp.extractorID env.pending bad rest
    (0 + responses.length) (hquiet _ (by omega)) hbad
  rw [hstep] at hloop
  obtain ⟨c1, c2, c3, c4, _⟩ := chunks_observed responses dp.extractorID
  obtain ⟨s1, s2, s3, s4, _⟩ := streaming_observed dp.extractorID
    (fetchLoop dp.extractorID env.pending (delivered responses ++ bad :: rest) 0)
  rw [Fetch_streaming dp env _ hsub hconn hquery, s1, s2, s3, s4, hloop,
    rowsSent_append, broadcasts_append, chunkRequests_append, closes_append, c1, c2, c3, c4]
  refine ⟨⟨msg, ?_, hmsg⟩, ?_, ?_, ?_⟩ <;> simp [broadcasts, rowsSent, chunkRequests, closes]

/-- C7 witness: a response carrying two series yields exactly one broadcast, by the
producer itself, and one close; the rows of the chunk before it are the only rows written
and the chunk after it is never requested. -/
theorem Fetch_fatal_broadcasts_once_witness :
    (∃ msg : String,
      broadcasts (Fetch sampleProducer twoSeriesSource) = [(sampleProducer.extractorID, msg)]
        ∧ Contains msg sampleProducer.extractorID) ∧
    rowsSent (Fetch sampleProducer twoSeriesSource) = [sampleRow 1, sampleRow 2] ∧
    chunkRequests (Fetch sampleProducer twoSeriesSource) = 2 ∧
    closes (Fetch sampleProducer twoSeriesSource) = 1 :=
  Fetch_fatal_broadcasts_once sampleProducer twoSeriesSource [sampleChunk 1 2]
    (NextOutcome.resp (some twoSeriesResponse)) (delivered [sampleChunk 3 4]) rfl rfl rfl
    (by decide) (fun _ _ => rfl) (by decide)

/-- C8 (as stated, on a failed Subscribe): when the bus rejects the subscription, `Fetch`
returns without any `Unsubscribe` call, so "unsubscribes exactly once and closes exactly
once" fails on that exit path. -/
theorem Fetch_failed_subscribe_never_unsubscribes :
    ¬ (unsubscribes sampleProducer.extractorID (Fetch sampleProducer duplicateIdentifier) = 1 ∧
       closes (Fetch sampleProducer duplicateIdentifier) = 1) := by
  decide

/-- C8 (amended): on every exit path of `Fetch` the data channel is closed exactly once,
and the producer unsubscribes its identifier exactly once on every exit path that follows
a successful Subscribe (normal completion, abort on notification, failed connection,
rejected query, fatal response) and not at all when Subscribe failed. -/
theorem Fetch_cleanup_on_every_path (dp : defaultDataProducer) (env : Collaborators) :
    closes (Fetch dp env) = 1 ∧
    unsubscribes dp.extractorID (Fetch dp env) = (if env.subscribe.isSome then 0 else 1) := by
  unfold Fetch
  cases hs : env.subscribe with
  | some e => simp [closes, unsubscribes]
  | none =>
    cases hc : env.newConnection with
    | some e => simp [closes, unsubscribes]
    | none =>
      cases hq : env.queryAsChunk with
      | error e => simp [closes, unsubscribes]
      | ok stream =>
        obtain ⟨n1, n2⟩ := fetchLoop_no_cleanup dp.extractorID dp.extractorID env.pending
          stream 0
        simp only [closes, unsubscribes] at n1 n2
        simp [closes, unsubscribes, List.count_append, n1, n2]

/-! ## Extraction coordinator -/

/-- C9: on an extractor with no cached bundle, `Start` returns an error whose message
contains "Prepare not called" and the identifier of the extractor, makes no collaborator
call at all (no query is built, `DataProducer.Fetch` is not called) and leaves the
extractor unchanged. -/
theorem Start_before_Prepare (e : Extractor) (fetch : producerArgs → Option String)
    (hnil : e.cachedElementData = none) :
    (∃ msg : String, (e.Start fetch).err = some msg ∧
      Contains msg "Prepare not called" ∧ Contains msg e.ID) ∧
    (e.Start fetch).calls = [] ∧
    (e.Start fetch).extractor = e := by
  have hmsg : Sprintf "%s: Prepare not called before start" [.str e.ID]
      = e.ID ++ ": Prepare not called before start" := by
    apply String.ext
    simp [Sprintf, sprintfAux, FmtArg.render]
  have hs : e.Start fetch
      = { err := some (e.ID ++ ": Prepare not called before start"), calls := [],
          extractor := e } := by
    simp only [Extractor.Start, hnil, hmsg]
  rw [hs]
  refine ⟨⟨_, rfl, ⟨e.ID ++ ": ", " before start", ?_⟩, ⟨"", ": Prepare not called before start", ?_⟩⟩,
    rfl, rfl⟩
  · apply String.ext
    simp
  · apply String.ext
    simp

/-- C9 witness: the unprepared sample extractor. -/
theorem Start_before_Prepare_witness :
    unprepared.cachedElementData = none ∧
    (unprepared.Start (fun _ => none)).err
      = some "extractor-1: Prepare not called before start" ∧
    (unprepared.Start (fun _ => none)).calls = [] ∧
    (unprepared.Start (fun _ => none)).extractor = unprepared :=
  ⟨rfl, by decide,
    (Start_before_Prepare unprepared (fun _ => none) rfl).2.1,
    (Start_before_Prepare unprepared (fun _ => none) rfl).2.2⟩

/-! ## Responses without series -/

/-- C10 (as stated, on an empty result list): a response whose result list is empty
carries zero series, yet `Fetch` broadcasts an error for it instead of ending normally. -/
theorem Fetch_empty_result_list_is_broadcast :
    broadcasts (Fetch sampleProducer noResultSource)
      = [("extractor-1", "extractor 'extractor-1': server did not return a proper response")] := by
  decide

/-- C10 (amended): a response with no error text and exactly one result, whose series list
is empty, ends the loop normally: after k well-formed chunks and with no notification
present, `Fetch` produces exactly the effects it produces when the source signals
end-of-stream at that point, so it calls `Broadcast` zero times, requests no further chunk
(k + 1 requests in all), writes no row for that response and closes the data channel
once. -/
theorem Fetch_no_series_completes (dp : defaultDataProducer) (env : Collaborators)
    (responses : List Response) (r : Response) (rest : List NextOutcome)
    (hsub : env.subscribe = none) (hconn : env.newConnection = none)
    (hquery : env.queryAsChunk = .ok (delivered responses ++ NextOutcome.resp (some r) :: rest))
    (hwf : ∀ r ∈ responses, WellFormed r)
    (hquiet : ∀ j, j < responses.length + 1 → env.pending j = [])
    (herr : r.Err = "") (hone : r.Results.length = 1)
    (hnone : ∀ res ∈ r.Results, res.Series = []) :
    Fetch dp env
      = Fetch dp { env with queryAsChunk := .ok (delivered responses ++ [NextOutcome.eof]) } ∧
    broadcasts (Fetch dp env) = [] ∧
    chunkRequests (Fetch dp env) = responses.length + 1 ∧
    rowsSent (Fetch dp env) = responses.flatMap responseRows ∧
    closes (Fetch dp env) = 1 := by
  have hq0 := quiet_below env.pending responses.length (fun j hj => hquiet j (by omega))
  have hlast : env.pending (0 + responses.length) = [] := hquiet _ (by omega)
  have hloop := fetchLoop_delivered dp.extractorID env.pending responses
    (NextOutcome.resp (some r) :: rest) 0 hwf hq0
  rw [fetchLoop_no_series dp.extractorID env.pending r rest _ hlast herr hone hnone] at hloop
  have hloop2 := fetchLoop_delivered dp.extractorID env.pending responses
    [NextOutcome.eof] 0 hwf hq0
  rw [fetchLoop_eof dp.extractorID env.pending [] _ hlast] at hloop2
  obtain ⟨c1, c2, c3, c4, _⟩ := chunks_observed responses dp.extractorID
  obtain ⟨s1, s2, s3, s4, _⟩ := streaming_observed dp.extractorID
    (fetchLoop dp.extractorID env.pending
      (delivered responses ++ NextOutcome.resp (some r) :: rest) 0)
  refine ⟨?_, ?_⟩
  · rw [Fetch_streaming dp env _ hsub hconn hquery,
      Fetch_streaming dp { env with queryAsChunk := .ok (delivered responses ++ [NextOutcome.eof]) }
        _ hsub hconn rfl, hloop, hloop2]
  · rw [Fetch_streaming dp env _ hsub hconn hquery, s1, s2, s3, s4, hloop,
      rowsSent_append, broadcasts_append, chunkRequests_append, closes_append, c1, c2, c3, c4]
    simp [broadcasts, rowsSent, chunkRequests, closes]

/-- C10 witness: one good chunk, then a response with one result and no series: the run
equals the run on the same chunk followed by end-of-stream. -/
theorem Fetch_no_series_completes_witness :
    broadcasts (Fetch sampleProducer noSeriesSource) = [] ∧
    chunkRequests (Fetch sampleProducer noSeriesSource) = 2 ∧
    rowsSent (Fetch sampleProducer noSeriesSource) = [sampleRow 1, sampleRow 2] ∧
    closes (Fetch sampleProducer noSeriesSource) = 1 :=
  (Fetch_no_series_completes sampleProducer noSeriesSource [sampleChunk 1 2] noSeriesResponse
    (delivered [sampleChunk 3 4]) rfl rfl rfl (by decide) (fun _ _ => rfl) rfl rfl
    (by decide)).2

end Outflux
